import Mathlib

/-!
# gcp-artifact-registry-docker-proxy

A shallow embedding of `cmd/gcp-artifact-registry-docker-proxy/main.go`: the startup sequence
of `main`, the two request handlers it registers, and the pieces of the Go standard library
and of `golang.org/x/oauth2` that those lines call.

Conventions.

* Go strings are Lean strings. The string operations the program uses (concatenation,
  `strings.Join`, `strings.HasPrefix`, `strings.TrimPrefix`) do not look inside a character.
* A Go map `map[string][]string` is a function from keys to optional values.
* A call with effects becomes a value: the outcome of a per-request `Token()` call is an
  argument of the handler, and `main` produces the list of effects it performed.
* Library packages keep their Go names as namespaces (`strings`, `url`, `http`, `oauth2`).
-/

set_option autoImplicit false

namespace GcpProxy

/-! ## Package `strings` -/

namespace strings

/-- Go `strings.HasPrefix(s, pre)`: `s` begins with `pre`. -/
def HasPrefix (s pre : String) : Bool :=
  pre.data.isPrefixOf s.data

/-- Go `strings.HasSuffix(s, suf)`: `s` ends with `suf`. -/
def HasSuffix (s suf : String) : Bool :=
  suf.data.isSuffixOf s.data

/-- Go `strings.TrimPrefix(s, pre)`: `s` without the leading `pre`, or `s` itself when it
does not begin with `pre`. Only one copy of `pre` is removed. -/
def TrimPrefix (s pre : String) : String :=
  if HasPrefix s pre then ⟨s.data.drop pre.data.length⟩ else s

/-- Go `strings.Join(elems, sep)`. -/
def Join : List String → String → String
  | [], _ => ""
  | [a], _ => a
  | a :: b :: rest, sep => a ++ sep ++ Join (b :: rest) sep

/-- Whether `sub` occurs in the character list `s` at some position. -/
def containsChars : List Char → List Char → Bool
  | [], sub => sub.isPrefixOf []
  | c :: cs, sub => sub.isPrefixOf (c :: cs) || containsChars cs sub

/-- Go `strings.Contains(s, sub)`. -/
def Contains (s sub : String) : Bool :=
  containsChars s.data sub.data

end strings

/-! ## Package `net/url` -/

namespace url

/-- The fields of Go's `url.URL` that the program reads or writes. -/
structure URL where
  Scheme : String
  Host : String
  Path : String
  RawPath : String
  RawQuery : String
  deriving DecidableEq, Repr

/-- Go `(*URL).IsAbs`: the URL has a non-empty scheme. -/
def URL.IsAbs (u : URL) : Bool :=
  u.Scheme != ""

/-- The bytes of a string (its UTF-8 encoding), as numbers below 256. -/
def bytes (s : String) : List Nat :=
  s.data.flatMap fun c => (String.utf8EncodeChar c).map UInt8.toNat

/-- Go `shouldEscape(c, encodePath)`: whether byte `c` is percent-encoded inside a path.
Letters, digits and `- _ . ~` are kept, so are the reserved `$ & + , / : ; = @`;
`?` and every other byte are escaped. -/
def shouldEscape (c : Nat) : Bool :=
  if (97 ≤ c ∧ c ≤ 122) ∨ (65 ≤ c ∧ c ≤ 90) ∨ (48 ≤ c ∧ c ≤ 57) then false
  else if c = 45 ∨ c = 95 ∨ c = 46 ∨ c = 126 then false
  else if c = 36 ∨ c = 38 ∨ c = 43 ∨ c = 44 ∨ c = 47 ∨ c = 58 ∨ c = 59 ∨ c = 61 ∨ c = 64 then
    false
  else true

/-- Go `ishex`. -/
def ishex (c : Nat) : Bool :=
  (48 ≤ c ∧ c ≤ 57) ∨ (97 ≤ c ∧ c ≤ 102) ∨ (65 ≤ c ∧ c ≤ 70)

/-- Go `unhex`. -/
def unhex (c : Nat) : Nat :=
  if 48 ≤ c ∧ c ≤ 57 then c - 48
  else if 97 ≤ c ∧ c ≤ 102 then c - 97 + 10
  else if 65 ≤ c ∧ c ≤ 70 then c - 65 + 10
  else 0

/-- The upper-case hexadecimal digit of a value below 16 (Go's `upperhex` table). -/
def upperhex (n : Nat) : Char :=
  "0123456789ABCDEF".data.getD n '0'

/-- Go `escape(s, encodePath)` on the bytes of `s`. -/
def escapeBytes : List Nat → List Char
  | [] => []
  | c :: cs =>
    if shouldEscape c then '%' :: upperhex (c / 16) :: upperhex (c % 16) :: escapeBytes cs
    else Char.ofNat c :: escapeBytes cs

/-- Go `escape(s, encodePath)`. -/
def escape (s : String) : String :=
  ⟨escapeBytes (bytes s)⟩

/-- Go `unescape(s, encodePath)` on bytes: `%XX` is decoded, a `%` not followed by two
hexadecimal digits is an error. -/
def unescapeBytes : List Nat → Option (List Nat)
  | [] => some []
  | c :: cs =>
    if c = 37 then
      match cs with
      | h :: l :: rest =>
        if ishex h && ishex l then
          (unescapeBytes rest).map fun t => (unhex h * 16 + unhex l) :: t
        else none
      | _ => none
    else (unescapeBytes cs).map fun t => c :: t

/-- Go `validEncoded(s, encodePath)`: every byte is a sub-delimiter, `:`, `@`, a square
bracket, `%`, or a byte that `shouldEscape` would keep. -/
def validEncoded (s : String) : Bool :=
  (bytes s).all fun c =>
    c = 33 ∨ c = 36 ∨ c = 38 ∨ c = 39 ∨ c = 40 ∨ c = 41 ∨ c = 42 ∨ c = 43 ∨ c = 44 ∨ c = 59
      ∨ c = 61 ∨ c = 58 ∨ c = 64 ∨ c = 91 ∨ c = 93 ∨ c = 37 ∨ shouldEscape c = false

/-- Go `(*URL).EscapedPath`: `RawPath` when it is a valid encoding of `Path`, else the
default escaping of `Path`. -/
def URL.EscapedPath (u : URL) : String :=
  if u.RawPath ≠ "" ∧ validEncoded u.RawPath = true
      ∧ unescapeBytes (bytes u.RawPath) = some (bytes u.Path) then u.RawPath
  else if u.Path = "*" then "*"
  else escape u.Path

end url

/-! ## Package `golang.org/x/oauth2` and `net/http` requests -/

namespace http

/-- Go `http.Header`, a `map[string][]string`. -/
structure Header where
  values : String → Option (List String)

/-- Go `Header.Set(key, value)` for a key already in canonical form: the entry for `key`
becomes the single value `value`. -/
def Header.Set (h : Header) (key value : String) : Header :=
  { values := fun k => if k = key then some [value] else h.values k }

/-- The fields of Go's `http.Request` that the handlers and the router read or write. -/
structure Request where
  Method : String
  URL : url.URL
  Host : String
  Header : http.Header
  Body : String
  RequestURI : String

/-- Go `http.StatusInternalServerError`. -/
def StatusInternalServerError : Nat := 500

/-- Go `http.StatusMovedPermanently`. -/
def StatusMovedPermanently : Nat := 301

/-- Go `http.StatusBadRequest`. -/
def StatusBadRequest : Nat := 400

end http

namespace oauth2

/-- The fields of Go's `oauth2.Token` used to build the Authorization header. -/
structure Token where
  AccessToken : String
  TokenType : String
  deriving DecidableEq, Repr

/-- The representative of a character under Unicode simple case folding, for the folding
classes that contain an ASCII letter: `A`-`Z` fold to `a`-`z`, the Kelvin sign to `k`, the
long s to `s`. -/
def foldRune (c : Char) : Char :=
  if 'A' ≤ c ∧ c ≤ 'Z' then Char.ofNat (c.toNat + 32)
  else if c = Char.ofNat 0x212A then 'k'
  else if c = Char.ofNat 0x017F then 's'
  else c

/-- Go `strings.EqualFold(s, t)` where `t` is an ASCII word, as in `Token.Type`. -/
def EqualFold (s t : String) : Bool :=
  s.data.map foldRune == t.data.map foldRune

/-- Go `(*Token).Type`. -/
def Token.Type (t : Token) : String :=
  if EqualFold t.TokenType "bearer" then "Bearer"
  else if EqualFold t.TokenType "mac" then "MAC"
  else if EqualFold t.TokenType "basic" then "Basic"
  else if t.TokenType ≠ "" then t.TokenType
  else "Bearer"

/-- Go `(*Token).SetAuthHeader(r)`: `r.Header.Set("Authorization", t.Type()+" "+t.AccessToken)`. -/
def Token.SetAuthHeader (t : Token) (r : http.Request) : http.Request :=
  { r with Header := r.Header.Set "Authorization" (t.Type ++ " " ++ t.AccessToken) }

end oauth2

/-! ## The request handlers of `main` -/

/-- The prefix computed at startup:
`proxyPath := strings.Join([]string{remote.EscapedPath(), ""}, "/")`. -/
def proxyPath (remote : url.URL) : String :=
  strings.Join [remote.EscapedPath, ""] "/"

/-- What a handler did with one request: the status it wrote itself (if any), the request it
handed to `proxy.ServeHTTP` (if any), and the request as the handler left it. -/
structure Served where
  status : Option Nat
  forwarded : Option http.Request
  request : http.Request

/-- The handler registered at `proxyPath+"v2/"`. `remote` and `proxyPath` are the variables
the closure captures, `fetch` is the outcome of its `gcpCredentials.TokenSource.Token()`. -/
def matchedPathHandler (remote : url.URL) (proxyPath : String)
    (fetch : Except String oauth2.Token) (r : http.Request) : Served :=
  match fetch with
  | .error _ =>
    { status := some http.StatusInternalServerError, forwarded := none, request := r }
  | .ok token =>
    let r₁ := { r with Host := remote.Host }
    let r₂ := { r₁ with URL := { r₁.URL with
      Path := "/v2" ++ proxyPath ++ strings.TrimPrefix r₁.URL.Path (proxyPath ++ "v2/") } }
    let r₃ := token.SetAuthHeader r₂
    { status := none, forwarded := some r₃, request := r₃ }

/-- The handler registered at `"/"`: sets `r.Host` and forwards. -/
def catchAllHandler (remote : url.URL) (r : http.Request) : Served :=
  let r₁ := { r with Host := remote.Host }
  { status := none, forwarded := some r₁, request := r₁ }

/-! ## Routing: packages `path` and `net/http` (`ServeMux`) -/

namespace path

/-- The elements of a path: the pieces between its slashes. -/
def elements : List Char → List (List Char)
  | [] => [[]]
  | c :: cs =>
    match elements cs with
    | [] => [[]]
    | e :: es => if c = '/' then [] :: e :: es else (c :: e) :: es

/-- The loop of Go `path.Clean` over the elements of the path, `out` being the elements kept
so far, last one first: empty and `.` elements are dropped, `..` removes the last kept
element when there is one to remove, and is kept itself only in a path that is not rooted. -/
def cleanElements (rooted : Bool) : List (List Char) → List (List Char) → List (List Char)
  | [], out => out
  | e :: es, out =>
    if e = [] ∨ e = ['.'] then cleanElements rooted es out
    else if e = ['.', '.'] then
      match out with
      | top :: below =>
        if top = ['.', '.'] then cleanElements rooted es (e :: out)
        else cleanElements rooted es below
      | [] => if rooted then cleanElements rooted es [] else cleanElements rooted es [e]
    else cleanElements rooted es (e :: out)

/-- Go `path.Clean`. -/
def Clean (p : String) : String :=
  if p = "" then "."
  else
    let rooted := strings.HasPrefix p "/"
    let kept := (cleanElements rooted (elements p.data) []).reverse
    let body : String := ⟨List.intercalate ['/'] kept⟩
    if rooted then "/" ++ body
    else if body = "" then "."
    else body

end path

namespace http

/-- Go `cleanPath` of `net/http`: the canonical form of a request path, rooted, without
`.`/`..` elements or repeated slashes, keeping a trailing slash. -/
def cleanPath (p : String) : String :=
  if p = "" then "/"
  else
    let p := if strings.HasPrefix p "/" then p else "/" ++ p
    let np := path.Clean p
    if strings.HasSuffix p "/" ∧ np ≠ "/" then
      if p.length = np.length + 1 ∧ strings.HasPrefix p np then p else np ++ "/"
    else np

/-- The two handlers `main` registers. -/
inductive HandlerId
  | matchedPath
  | catchAll
  deriving DecidableEq, Repr

/-- Go `muxEntry`. -/
structure muxEntry where
  h : HandlerId
  pattern : String
  deriving DecidableEq, Repr

/-- Go `ServeMux` (the router behind `http.HandleFunc`): `m` holds every registered
entry, `es` those whose pattern ends in a slash, longest pattern first. The model is the
classic router of Go 1.21, the first release with `log/slog`: it compares the pattern as
registered with the decoded request path. The router of later releases decodes the
percent-escapes of a pattern and walks the escaped request path element by element, so the
two agree on the patterns of `main` only when the prefix holds no percent-escape; the
status of the router's own redirects (301 here) also differs between releases.
Host-qualified lookups are left out: every pattern `main` registers starts with a slash,
and a `Host` value holds no slash. -/
structure ServeMux where
  m : List muxEntry
  es : List muxEntry
  deriving DecidableEq, Repr

/-- Go `appendSorted`: insert before the first entry with a shorter pattern. -/
def appendSorted : List muxEntry → muxEntry → List muxEntry
  | [], e => [e]
  | x :: xs, e =>
    if x.pattern.length < e.pattern.length then e :: x :: xs else x :: appendSorted xs e

/-- Go `(*ServeMux).Handle`, for a pattern that is neither empty nor registered already. -/
def ServeMux.Handle (mux : ServeMux) (pattern : String) (h : HandlerId) : ServeMux :=
  let e : muxEntry := { h := h, pattern := pattern }
  { m := mux.m ++ [e]
    es := if strings.HasSuffix pattern "/" then appendSorted mux.es e else mux.es }

/-- Go `(*ServeMux).match`: an exact match first, else the longest pattern ending in a
slash that the path begins with. -/
def ServeMux.lookup (mux : ServeMux) (path : String) : Option muxEntry :=
  match mux.m.find? fun e => e.pattern = path with
  | some e => some e
  | none => mux.es.find? fun e => strings.HasPrefix path e.pattern

/-- Go `(*ServeMux).shouldRedirectRLocked`: `path` is not registered, `path+"/"` is, and
`path` does not end in a slash. -/
def ServeMux.shouldRedirect (mux : ServeMux) (path : String) : Bool :=
  if mux.m.any fun e => e.pattern = path then false
  else if path = "" then false
  else if mux.m.any fun e => e.pattern = path ++ "/" then !strings.HasSuffix path "/"
  else false

/-- What the router decides for a request. -/
inductive Route
  | handler (e : muxEntry)
  | redirect (path rawQuery : String)
  | notFound
  deriving DecidableEq, Repr

/-- Go `(*ServeMux).handler`. -/
def ServeMux.handler (mux : ServeMux) (path : String) : Route :=
  match mux.lookup path with
  | some e => .handler e
  | none => .notFound

/-- Go `(*ServeMux).Handler`: a request naming a registered subtree without its trailing
slash is redirected to the subtree root; a request other than CONNECT whose path is not in
canonical form is redirected to the canonical path; else the matching entry handles it. -/
def ServeMux.Handler (mux : ServeMux) (r : Request) : Route :=
  if r.Method = "CONNECT" then
    if mux.shouldRedirect r.URL.Path then .redirect (r.URL.Path ++ "/") r.URL.RawQuery
    else mux.handler r.URL.Path
  else
    let path := cleanPath r.URL.Path
    if mux.shouldRedirect path then .redirect (path ++ "/") r.URL.RawQuery
    else if path ≠ r.URL.Path then .redirect path r.URL.RawQuery
    else mux.handler r.URL.Path

end http

/-- The default mux after the two `http.HandleFunc` calls of `main`. -/
def registered (proxyPath : String) : http.ServeMux :=
  (({ m := [], es := [] } : http.ServeMux).Handle (proxyPath ++ "v2/") .matchedPath).Handle
    "/" .catchAll

/-- The answer to one inbound request. -/
inductive Outcome
  | served (h : http.HandlerId) (s : Served)
  | redirect (status : Nat) (path rawQuery : String)
  | status (code : Nat)

/-- Go `(*ServeMux).ServeHTTP` on the mux of `main`: `RequestURI == "*"` is answered 400,
else the request goes to what `Handler` selects. -/
def serve (remote : url.URL) (proxyPath : String) (fetch : Except String oauth2.Token)
    (r : http.Request) : Outcome :=
  if r.RequestURI = "*" then .status http.StatusBadRequest
  else
    match (registered proxyPath).Handler r with
    | .handler e =>
      match e.h with
      | .matchedPath => .served .matchedPath (matchedPathHandler remote proxyPath fetch r)
      | .catchAll => .served .catchAll (catchAllHandler remote r)
    | .redirect p q => .redirect http.StatusMovedPermanently p q
    | .notFound => .status 404

/-! ## Startup: `parseConfiguration` and `main` -/

/-- Go `Config`. -/
structure Config where
  Listen : String
  OnlyMetadata : Bool
  Registry : String
  deriving DecidableEq, Repr

/-- Go `oauth2.TokenSource`: `Token n` is the outcome of the call number `n` of its `Token()`
method, an access token or an error. -/
structure TokenSource where
  Token : Nat → Except String oauth2.Token

/-- Go `google.Credentials`. -/
structure Credentials where
  ProjectID : String
  TokenSource : TokenSource

/-- What the libraries and the surroundings answer to the calls of `main`. An `Except` is a
Go result with its `err`; an `Option String` is a Go `error`, `none` being `nil`. -/
structure Env where
  /-- The error of `viper.BindPFlags(pflag.CommandLine)`. -/
  bindPFlags : Option String
  /-- The settings filled by `viper.Unmarshal(settings)`, or its error. -/
  unmarshal : Except String Config
  /-- Go `viper.GetString(key)`. -/
  getString : String → String
  /-- Go `url.Parse(rawURL)`. -/
  urlParse : String → Except String url.URL
  /-- Go `metadata.OnGCE()`. -/
  onGCE : Bool
  /-- The identifier returned by `metadata.ProjectID()` (its error is dropped by `main`). -/
  projectID : String
  /-- Go `google.ComputeTokenSource("", gcpScopes...)`. -/
  computeTokenSource : TokenSource
  /-- Go `google.FindDefaultCredentials(context.Background(), gcpScopes...)`. -/
  findDefaultCredentials : Except String Credentials
  /-- The error with which `http.ListenAndServe(addr, nil)` returns, `none` while it keeps
  serving. -/
  listenAndServe : String → Option String

/-- Go `parseConfiguration`. -/
def parseConfiguration (env : Env) : Except String Config :=
  match env.bindPFlags with
  | some err => .error ("unable to bing pflags to viper: " ++ err)
  | none =>
    match env.unmarshal with
    | .error err => .error ("unable to parse settings: " ++ err)
    | .ok settings =>
      if env.getString "registry" = "" then .error "registry must be set"
      else .ok settings

/-- One effect of `main` on its surroundings. -/
inductive Event
  | slogError (msg : String)
  | slogInfo (msg : String)
  | urlParse (rawURL : String)
  | onGCE
  | projectID
  | computeTokenSource
  | findDefaultCredentials
  | token
  | handleFunc (pattern : String) (h : http.HandlerId)
  | listenAndServe (addr : String)
  | exit (code : Nat)
  deriving DecidableEq, Repr

/-- The event is a lookup or a use of credentials. -/
def Event.isCredential : Event → Bool
  | .onGCE | .projectID | .computeTokenSource | .findDefaultCredentials | .token => true
  | _ => false

/-- The event registers a request handler. -/
def Event.isHandleFunc : Event → Bool
  | .handleFunc _ _ => true
  | _ => false

/-- The event binds the listener. -/
def Event.isListen : Event → Bool
  | .listenAndServe _ => true
  | _ => false

/-- Go `main`, as the list of its effects in order. The list ends in `exit 1` when the
process exits, and in `listenAndServe` when the server is left running. The pair `setup`
is the credential block of `main`: its effects, and `gcpCredentials` unless it has exited. -/
def main (env : Env) : List Event :=
  match parseConfiguration env with
  | .error _ => [.slogError "Error reading configuration", .exit 1]
  | .ok config =>
    .urlParse config.Registry ::
      match env.urlParse config.Registry with
      | .error _ => [.slogError "Unable to parse registry address", .exit 1]
      | .ok remote =>
        if !remote.IsAbs then [.slogError "Expected absolute registry URL", .exit 1]
        else
          let proxyPath := proxyPath remote
          let setup : List Event × Option Credentials :=
            if config.OnlyMetadata then
              if !env.onGCE then
                ([.onGCE, .slogError "Not running on GCE instance to use metadata server",
                  .exit 1], none)
              else
                ([.onGCE, .projectID, .computeTokenSource],
                  some { ProjectID := env.projectID, TokenSource := env.computeTokenSource })
            else
              match env.findDefaultCredentials with
              | .error _ =>
                ([.findDefaultCredentials, .slogError "Unable to setup GCP credentials",
                  .exit 1], none)
              | .ok found => ([.findDefaultCredentials], some found)
          match setup with
          | (effects, none) => effects
          | (effects, some gcpCredentials) =>
            effects ++ .token ::
              match gcpCredentials.TokenSource.Token 0 with
              | .error _ => [.slogError "Unable to fetch initial GCP token", .exit 1]
              | .ok _ =>
                .handleFunc (proxyPath ++ "v2/") .matchedPath :: .handleFunc "/" .catchAll ::
                  .slogInfo "Starting server..." :: .listenAndServe config.Listen ::
                    match env.listenAndServe config.Listen with
                    | some _ => [.slogError "Unable to start HTTP server", .exit 1]
                    | none => []

/-- The router passes the request on to a handler instead of answering it itself with an
error or a redirect to the canonical path: the request-URI is not `*`, the path is rooted
and, unless the method is CONNECT, already in the form `cleanPath` gives it. -/
def http.Request.canonical (r : http.Request) : Bool :=
  r.RequestURI != "*" && strings.HasPrefix r.URL.Path "/"
    && (r.Method == "CONNECT" || http.cleanPath r.URL.Path == r.URL.Path)

/-! ## Example values -/

/-- The registry URL of the repository's test: `https://backend/example-project/example-repo`
as `url.Parse` returns it. -/
def exampleRemote : url.URL :=
  { Scheme := "https", Host := "backend", Path := "/example-project/example-repo",
    RawPath := "", RawQuery := "" }

/-- The registry URL `https://backend`, without a path, as `url.Parse` returns it. -/
def rootRemote : url.URL :=
  { Scheme := "https", Host := "backend", Path := "", RawPath := "", RawQuery := "" }

/-- The registry URL `https://backend/example-project/example-repo/`, with a trailing
slash, as `url.Parse` returns it. -/
def slashRemote : url.URL :=
  { Scheme := "https", Host := "backend", Path := "/example-project/example-repo/",
    RawPath := "", RawQuery := "" }

/-- A GET request for `path` as the server hands it to the router, with the given headers. -/
def exampleRequest (path : String) (header : http.Header) : http.Request :=
  { Method := "GET"
    URL := { Scheme := "", Host := "", Path := path, RawPath := "", RawQuery := "" }
    Host := "127.0.0.1:8000", Header := header, Body := "", RequestURI := path }

/-- The empty header map. -/
def noHeader : http.Header :=
  { values := fun _ => none }

/-- A token as Google's token endpoints return it. -/
def exampleToken : oauth2.Token :=
  { AccessToken := "ya29.token", TokenType := "Bearer" }

/-- A token whose type is `mac`. -/
def macToken : oauth2.Token :=
  { AccessToken := "tok-2", TokenType := "mac" }

/-- Answers of the surroundings for a run of `main`: flags and settings are read without
error, `url.Parse` answers `parsed`, both credential lookups lead to a token source whose
every `Token()` call answers `fetch` (unless `found` is an error), and the listener keeps
serving. -/
def exampleEnv (config : Config) (parsed : Except String url.URL) (onGCE : Bool)
    (found : Except String Unit) (fetch : Except String oauth2.Token) : Env :=
  { bindPFlags := none
    unmarshal := .ok config
    getString := fun key => if key = "registry" then config.Registry else ""
    urlParse := fun _ => parsed
    onGCE := onGCE
    projectID := "example-project"
    computeTokenSource := { Token := fun _ => fetch }
    findDefaultCredentials :=
      found.map fun _ =>
        { ProjectID := "example-project", TokenSource := { Token := fun _ => fetch } }
    listenAndServe := fun _ => none }

/-- The settings of the repository's test, with the given registry address and mode. -/
def exampleConfig (registry : String) (onlyMetadata : Bool) : Config :=
  { Listen := "127.0.0.1:8000", OnlyMetadata := onlyMetadata, Registry := registry }

/-! ## Helper lemmas -/

/-- Trimming the prefix `pre` off `pre ++ rest` leaves `rest`. -/
theorem TrimPrefix_append (pre rest : String) :
    strings.TrimPrefix (pre ++ rest) pre = rest := by
  have h : strings.HasPrefix (pre ++ rest) pre = true := by
    simp [strings.HasPrefix, String.data_append]
  simp [strings.TrimPrefix, h, String.data_append]

/-- The prefix is the escaped path of the registry URL followed by a slash. -/
theorem proxyPath_eq (remote : url.URL) : proxyPath remote = remote.EscapedPath ++ "/" := by
  simp [proxyPath, strings.Join]

/-- The characters of the string literals used by `main`. -/
theorem data_v2slash : "v2/".data = ['v', '2', '/'] := rfl

/-- The characters of `v2`. -/
theorem data_v2 : "v2".data = ['v', '2'] := rfl

/-- The characters of `/`. -/
theorem data_slash : "/".data = ['/'] := rfl

/-- A string begins with each of its left factors. -/
theorem HasPrefix_self_append (s t : String) : strings.HasPrefix (s ++ t) s = true := by
  simp [strings.HasPrefix, String.data_append]

theorem HasPrefix_self (s : String) : strings.HasPrefix s s = true := by
  simp [strings.HasPrefix]

/-- The pattern of the matched-path handler ends in a slash. -/
theorem HasSuffix_pattern (P : String) : strings.HasSuffix (P ++ "v2/") "/" = true := by
  simp only [strings.HasSuffix, String.data_append, data_v2slash, data_slash,
    List.isSuffixOf_iff_suffix]
  exact ⟨P.data ++ ['v', '2'], by simp⟩

/-- The mux of `main` in closed form: both patterns end in a slash, the longer one first. -/
theorem registered_eq (P : String) :
    registered P =
      { m := [{ h := .matchedPath, pattern := P ++ "v2/" }, { h := .catchAll, pattern := "/" }]
        es := [{ h := .matchedPath, pattern := P ++ "v2/" },
               { h := .catchAll, pattern := "/" }] } := by
  have h1 : strings.HasSuffix "/" "/" = true := by decide
  have h3 : ("v2/" : String).length = 3 := rfl
  have h4 : ("/" : String).length = 1 := rfl
  have h2 : ¬ ((P ++ "v2/").length < ("/" : String).length) := by
    rw [String.length_append, h3, h4]; omega
  simp only [registered, http.ServeMux.Handle, http.appendSorted, HasSuffix_pattern, h1, h2,
    if_true, if_false, List.nil_append, List.cons_append]

/-- Only `P + "v2"` becomes the pattern `P + "v2/"` when a slash is appended. -/
theorem append_slash_eq_pattern (s P : String) : P ++ "v2/" = s ++ "/" ↔ s = P ++ "v2" := by
  simp only [String.ext_iff, String.data_append, data_v2slash, data_v2, data_slash]
  constructor
  · intro h
    have : P.data ++ ['v', '2'] ++ ['/'] = s.data ++ ['/'] := by simpa using h
    exact (List.append_cancel_right this).symm
  · intro h
    simp [h]

/-- A non-empty path followed by a slash is not the pattern `/`. -/
theorem slash_ne_append_slash (s : String) (h : s ≠ "") : "/" ≠ s ++ "/" := by
  intro he
  apply h
  have := congrArg String.length he
  rw [String.length_append] at this
  have h4 : ("/" : String).length = 1 := rfl
  rw [h4] at this
  have h0 : s.length = 0 := by omega
  exact String.ext (List.length_eq_zero.mp h0)

/-- A rooted path is not empty. -/
theorem rooted_ne_empty (s : String) (h : strings.HasPrefix s "/" = true) : s ≠ "" := by
  intro he
  rw [he] at h
  exact absurd h (by decide)

/-- The router selects the catch-all entry for a rooted path in canonical form that is
neither `P + "v2"` nor begins with `P + "v2/"`. -/
theorem Handler_catchAll (P : String) (r : http.Request)
    (hroot : strings.HasPrefix r.URL.Path "/" = true)
    (hclean : r.Method = "CONNECT" ∨ http.cleanPath r.URL.Path = r.URL.Path)
    (hne : r.URL.Path ≠ P ++ "v2")
    (hnp : strings.HasPrefix r.URL.Path (P ++ "v2/") = false) :
    (registered P).Handler r = .handler { h := .catchAll, pattern := "/" } := by
  have hpat : P ++ "v2/" ≠ r.URL.Path := by
    intro h
    rw [← h, HasPrefix_self] at hnp
    exact absurd hnp (by simp)
  have hemp : r.URL.Path ≠ "" := rooted_ne_empty _ hroot
  have h1 : ¬ (P ++ "v2/" = r.URL.Path ++ "/") :=
    fun h => hne ((append_slash_eq_pattern _ _).mp h)
  have h2 : ¬ ("/" = r.URL.Path ++ "/") := slash_ne_append_slash _ hemp
  have hsr : (registered P).shouldRedirect r.URL.Path = false := by
    simp [http.ServeMux.shouldRedirect, registered_eq, hpat, hemp, h1, h2]
  have hh : (registered P).handler r.URL.Path = .handler { h := .catchAll, pattern := "/" } := by
    by_cases hs : "/" = r.URL.Path
    · simp [http.ServeMux.handler, http.ServeMux.lookup, registered_eq, hpat, hs]
    · simp [http.ServeMux.handler, http.ServeMux.lookup, registered_eq, hpat, hs, hnp, hroot]
  unfold http.ServeMux.Handler
  rcases hclean with hc | hc
  · simp [hc, hsr, hh]
  · by_cases hm : r.Method = "CONNECT"
    · simp [hm, hsr, hh]
    · simp [hm, hc, hsr, hh]

/-- The function `strings.HasPrefix` decides the prefix relation on character lists. -/
theorem HasPrefix_iff (s pre : String) : strings.HasPrefix s pre = true ↔ pre.data <+: s.data := by
  simp [strings.HasPrefix, List.isPrefixOf_iff_prefix]

/-- The function `strings.HasPrefix` answers `false` exactly when the relation fails. -/
theorem HasPrefix_false_iff (s pre : String) :
    strings.HasPrefix s pre = false ↔ ¬ pre.data <+: s.data := by
  rw [← HasPrefix_iff]; simp

/-- On character lists: unless `p` is `/` or begins with `/v2/`, the list `p ++ "v2/"` is
not a prefix of `"/v2" ++ p ++ rest`. -/
theorem not_prefix_upstream_shape (p rest : List Char) (h1 : p ≠ ['/'])
    (h2 : ¬ ['/', 'v', '2', '/'] <+: p) :
    ¬ (p ++ ['v', '2', '/']) <+: (['/', 'v', '2'] ++ p ++ rest) := by
  rcases p with _ | ⟨a, _ | ⟨b, _ | ⟨c, _ | ⟨d, t⟩⟩⟩⟩
  · simp [List.cons_prefix_cons]
  · simp only [List.cons_append, List.nil_append, List.cons_prefix_cons]
    rintro ⟨ha, -⟩
    exact h1 (by rw [ha])
  · simp only [List.cons_append, List.nil_append, List.cons_prefix_cons]
    rintro ⟨-, -, hv, -⟩
    exact absurd hv (by decide)
  · simp only [List.cons_append, List.nil_append, List.cons_prefix_cons]
    rintro ⟨ha, -, -, hv, -⟩
    rw [ha] at hv
    exact absurd hv (by decide)
  · simp only [List.cons_append, List.nil_append, List.cons_prefix_cons]
    rintro ⟨ha, hb, hc, hd, -⟩
    apply h2
    subst ha hb hc hd
    exact ⟨t, rfl⟩

/-- The characters of the marker `/v2`. -/
theorem data_slash_v2 : "/v2".data = ['/', 'v', '2'] := rfl

/-- The characters of `/v2/`. -/
theorem data_slash_v2_slash : "/v2/".data = ['/', 'v', '2', '/'] := rfl

/-- An upstream-shaped path `"/v2" + P + rest` begins with the pattern `P + "v2/"` exactly
when `P + "v2/"` and `"/v2" + P` are the same string, whatever `rest` is. -/
theorem upstream_shape_matched_iff (P rest : String) :
    strings.HasPrefix ("/v2" ++ P ++ rest) (P ++ "v2/") = true ↔ P ++ "v2/" = "/v2" ++ P := by
  constructor
  · intro h
    rw [HasPrefix_iff] at h
    obtain ⟨t, ht⟩ := h
    simp only [String.data_append] at ht
    have hlen : (P.data ++ "v2/".data).length = ("/v2".data ++ P.data).length := by
      simp only [List.length_append, data_v2slash, data_slash_v2, List.length_cons,
        List.length_nil]
      omega
    exact String.ext (by simpa [String.data_append] using (List.append_inj ht hlen).1)
  · intro h
    rw [← h]
    exact HasPrefix_self_append _ _

/-- A prefix other than `/` that does not begin with `/v2/` gives a pattern `P + "v2/"`
different from `"/v2" + P`. -/
theorem pattern_ne_upstream (P : String) (h1 : P ≠ "/")
    (h2 : strings.HasPrefix P "/v2/" = false) : P ++ "v2/" ≠ "/v2" ++ P := by
  intro h
  have hp := (upstream_shape_matched_iff P "").mpr h
  rw [HasPrefix_iff] at hp
  rw [HasPrefix_false_iff] at h2
  simp only [String.data_append, data_v2slash, data_slash_v2, data_slash_v2_slash] at h2 hp
  refine not_prefix_upstream_shape P.data "".data ?_ h2 hp
  intro h
  exact h1 (String.ext (by rw [h, data_slash]))

/-- An upstream-shaped path is longer than `P + "v2"`, so it is not that path. -/
theorem upstream_shape_ne (P rest : String) : "/v2" ++ P ++ rest ≠ P ++ "v2" := by
  intro h
  have := congrArg String.length h
  simp only [String.length_append] at this
  have h3 : ("/v2" : String).length = 3 := rfl
  have h4 : ("v2" : String).length = 2 := rfl
  omega

/-- A canonical request whose path is neither `P + "v2"` nor begins with `P + "v2/"` is
served by the catch-all handler. -/
theorem serve_catchAll (remote : url.URL) (P : String) (fetch : Except String oauth2.Token)
    (r : http.Request) (hcanon : r.canonical = true) (hne : r.URL.Path ≠ P ++ "v2")
    (hnp : strings.HasPrefix r.URL.Path (P ++ "v2/") = false) :
    serve remote P fetch r = .served .catchAll (catchAllHandler remote r) := by
  simp only [http.Request.canonical, Bool.and_eq_true, Bool.or_eq_true, bne_iff_ne, ne_eq,
    beq_iff_eq] at hcanon
  obtain ⟨⟨huri, hroot⟩, hclean⟩ := hcanon
  simp [serve, huri, Handler_catchAll P r hroot hclean hne hnp]

/-- Appending the same character to two lists keeps and reflects the suffix relation. -/
theorem suffix_concat_concat (l₁ l₂ : List Char) (a : Char) :
    l₁ ++ [a] <:+ l₂ ++ [a] ↔ l₁ <:+ l₂ := by
  constructor
  · rintro ⟨t, ht⟩
    exact ⟨t, List.append_cancel_right (by simpa using ht)⟩
  · rintro ⟨t, ht⟩
    exact ⟨t, by rw [← ht, List.append_assoc]⟩

/-- The function `strings.HasSuffix` decides the suffix relation on character lists. -/
theorem HasSuffix_iff (s suf : String) : strings.HasSuffix s suf = true ↔ suf.data <:+ s.data := by
  simp [strings.HasSuffix, List.isSuffixOf_iff_suffix]

/-- The function `containsChars` decides the infix relation on character lists. -/
theorem containsChars_iff (s sub : List Char) : strings.containsChars s sub = true ↔ sub <:+: s := by
  induction s with
  | nil => simp [strings.containsChars, List.isPrefixOf_iff_prefix]
  | cons c cs ih =>
    simp [strings.containsChars, List.isPrefixOf_iff_prefix, List.infix_cons_iff, ih]

/-- The function `strings.Contains` decides the infix relation on character lists. -/
theorem Contains_iff (s sub : String) : strings.Contains s sub = true ↔ sub.data <:+: s.data := by
  simp [strings.Contains, containsChars_iff]

/-- The characters of `//`. -/
theorem data_slash_slash : "//".data = ['/', '/'] := rfl

/-- A string followed by a slash ends in a slash. -/
theorem HasSuffix_append_slash (e : String) : strings.HasSuffix (e ++ "/") "/" = true := by
  rw [HasSuffix_iff, String.data_append]
  exact List.suffix_append _ _

/-- A string followed by a slash ends in two slashes exactly when it ends in a slash. -/
theorem HasSuffix_slash_slash (e : String) :
    strings.HasSuffix (e ++ "/") "//" = strings.HasSuffix e "/" := by
  rw [Bool.eq_iff_iff, HasSuffix_iff, HasSuffix_iff, String.data_append, data_slash_slash,
    data_slash]
  exact suffix_concat_concat ['/'] e.data '/'

/-- A string followed by a slash contains `v2/` exactly when it contains `v2/` or ends in
`v2`. -/
theorem Contains_append_slash (e : String) :
    strings.Contains (e ++ "/") "v2/" = (strings.Contains e "v2/" || strings.HasSuffix e "v2") := by
  rw [Bool.eq_iff_iff, Bool.or_eq_true, Contains_iff, Contains_iff, HasSuffix_iff,
    String.data_append, data_v2slash, data_slash, data_v2, List.infix_concat_iff]
  have h := suffix_concat_concat ['v', '2'] e.data '/'
  simp only [List.cons_append, List.nil_append] at h
  rw [h]
  exact Or.comm

/-- The prefix is the escaped path of the registry URL followed by one slash: it always
ends in a slash, it ends in two slashes exactly when the escaped path itself ends in a
slash, and for an empty path it is `/`. -/
theorem proxyPath_trailing_slash (remote : url.URL) :
    strings.HasSuffix (proxyPath remote) "/" = true
      ∧ strings.HasSuffix (proxyPath remote) "//" = strings.HasSuffix remote.EscapedPath "/"
      ∧ (remote.EscapedPath = "" → proxyPath remote = "/") := by
  refine ⟨?_, ?_, ?_⟩
  · rw [proxyPath_eq]; exact HasSuffix_append_slash _
  · rw [proxyPath_eq]; exact HasSuffix_slash_slash _
  · intro h
    rw [proxyPath_eq, h]
    rfl

/-! ## The matched-path handler -/

/-- C1: for the prefix `P` computed at startup from any registry URL and any `rest`, the
matched-path handler turns the request path `P + "v2/" + rest` into `"/v2" + P + rest`, both
in the request it forwards and in the request as it leaves it. -/
theorem C1_matched_path_rewritten (remote : url.URL) (token : oauth2.Token) (r : http.Request)
    (rest : String) (h : r.URL.Path = proxyPath remote ++ "v2/" ++ rest) :
    ((matchedPathHandler remote (proxyPath remote) (.ok token) r).forwarded.map
        fun q => q.URL.Path) = some ("/v2" ++ proxyPath remote ++ rest)
      ∧ (matchedPathHandler remote (proxyPath remote) (.ok token) r).request.URL.Path
        = "/v2" ++ proxyPath remote ++ rest := by
  have ht : strings.TrimPrefix r.URL.Path (proxyPath remote ++ "v2/") = rest := by
    rw [h]
    exact TrimPrefix_append _ _
  simp [matchedPathHandler, oauth2.Token.SetAuthHeader, ht]

/-- C1 at the request of the repository's test, and at a `rest` that repeats the pattern. -/
theorem C1_matched_path_rewritten_witness :
    ((matchedPathHandler exampleRemote (proxyPath exampleRemote) (.ok exampleToken)
        (exampleRequest "/example-project/example-repo/v2/library/hello-world/manifests/latest"
          noHeader)).forwarded.map fun q => q.URL.Path)
      = some "/v2/example-project/example-repo/library/hello-world/manifests/latest"
    ∧ ((matchedPathHandler exampleRemote (proxyPath exampleRemote) (.ok exampleToken)
        (exampleRequest "/example-project/example-repo/v2//example-project/example-repo/v2/x"
          noHeader)).forwarded.map fun q => q.URL.Path)
      = some "/v2/example-project/example-repo//example-project/example-repo/v2/x" :=
  ⟨(C1_matched_path_rewritten exampleRemote exampleToken
      (exampleRequest "/example-project/example-repo/v2/library/hello-world/manifests/latest"
        noHeader) "library/hello-world/manifests/latest" (by decide)).1.trans (by decide),
   (C1_matched_path_rewritten exampleRemote exampleToken
      (exampleRequest "/example-project/example-repo/v2//example-project/example-repo/v2/x"
        noHeader) "/example-project/example-repo/v2/x" (by decide)).1.trans (by decide)⟩

/-- C2, as stated, fails for a token that is not a bearer token: for a token of type `mac`
with access token `tok-2` the forwarded request carries the Authorization value
`MAC tok-2`, not `Bearer tok-2`. -/
theorem C2_authorization_counterexample :
    ∃ q, (matchedPathHandler exampleRemote (proxyPath exampleRemote) (.ok macToken)
        (exampleRequest "/example-project/example-repo/v2/library/hello-world/manifests/latest"
          noHeader)).forwarded = some q
      ∧ q.Header.values "Authorization" = some ["MAC tok-2"]
      ∧ q.Header.values "Authorization" ≠ some ["Bearer " ++ macToken.AccessToken] :=
  ⟨_, rfl, by decide, by decide⟩

/-- C2, amended: when the token fetch succeeds, the request forwarded by the matched-path
handler has exactly one Authorization value, whatever the inbound request carried there:
the type of the token as `Type()` reports it, a space, and the access token. For a bearer
token (token type `bearer` in any letter case, or left empty) that value is
`"Bearer " + AccessToken`. -/
theorem C2_authorization_replaced (remote : url.URL) (proxyPath : String)
    (token : oauth2.Token) (r : http.Request) :
    ∃ q, (matchedPathHandler remote proxyPath (.ok token) r).forwarded = some q
      ∧ q.Header.values "Authorization" = some [token.Type ++ " " ++ token.AccessToken]
      ∧ (oauth2.EqualFold token.TokenType "bearer" = true ∨ token.TokenType = "" →
          q.Header.values "Authorization" = some ["Bearer " ++ token.AccessToken]) := by
  have hv : ((token.SetAuthHeader
      { r with
        Host := remote.Host
        URL := { r.URL with
          Path := "/v2" ++ proxyPath
            ++ strings.TrimPrefix r.URL.Path (proxyPath ++ "v2/") } }).Header.values
        "Authorization") = some [token.Type ++ " " ++ token.AccessToken] := by
    simp [oauth2.Token.SetAuthHeader, http.Header.Set]
  refine ⟨_, rfl, hv, ?_⟩
  intro h
  have hT : token.Type = "Bearer" := by
    rcases h with h | h
    · simp [oauth2.Token.Type, h]
    · have h1 : oauth2.EqualFold "" "bearer" = false := by decide
      have h2 : oauth2.EqualFold "" "mac" = false := by decide
      have h3 : oauth2.EqualFold "" "basic" = false := by decide
      simp [oauth2.Token.Type, h, h1, h2, h3]
  have hb : "Bearer" ++ " " = "Bearer " := by decide
  rw [hv, hT, hb]

/-- C2, amended, at a bearer token and a request that arrives with an Authorization header
of its own. -/
theorem C2_authorization_replaced_witness :
    ∃ q, (matchedPathHandler exampleRemote (proxyPath exampleRemote) (.ok exampleToken)
        (exampleRequest "/example-project/example-repo/v2/library/hello-world/manifests/latest"
          (noHeader.Set "Authorization" "Basic dXNlcjpwdw=="))).forwarded = some q
      ∧ q.Header.values "Authorization" = some ["Bearer ya29.token"] :=
  match C2_authorization_replaced exampleRemote (proxyPath exampleRemote) exampleToken
    (exampleRequest "/example-project/example-repo/v2/library/hello-world/manifests/latest"
      (noHeader.Set "Authorization" "Basic dXNlcjpwdw==")) with
  | ⟨q, hq, _, hb⟩ => ⟨q, hq, hb (Or.inl (by decide))⟩

/-- C4: when the token fetch fails, the matched-path handler writes status 500, hands
nothing to the reverse proxy, and leaves the request as it received it. -/
theorem C4_token_error_is_500 (remote : url.URL) (proxyPath err : String) (r : http.Request) :
    (matchedPathHandler remote proxyPath (.error err) r).status = some 500
      ∧ (matchedPathHandler remote proxyPath (.error err) r).forwarded = none
      ∧ (matchedPathHandler remote proxyPath (.error err) r).request = r := by
  simp [matchedPathHandler, http.StatusInternalServerError]

/-- C7: the request the matched-path handler forwards is the inbound request with new
values for `Host`, `URL.Path` and the Authorization entry of the headers only: method,
query, body and every other header (and every other field) are those of the inbound request. -/
theorem C7_matched_path_frame (remote : url.URL) (proxyPath : String) (token : oauth2.Token)
    (r : http.Request) :
    ∃ q, (matchedPathHandler remote proxyPath (.ok token) r).forwarded = some q
      ∧ q.Method = r.Method ∧ q.URL.RawQuery = r.URL.RawQuery ∧ q.Body = r.Body
      ∧ (∀ key, key ≠ "Authorization" → q.Header.values key = r.Header.values key)
      ∧ q = { r with
          Host := q.Host
          URL := { r.URL with Path := q.URL.Path }
          Header := r.Header.Set "Authorization" (token.Type ++ " " ++ token.AccessToken) } := by
  refine ⟨_, rfl, rfl, rfl, rfl, ?_, rfl⟩
  intro key hkey
  simp [oauth2.Token.SetAuthHeader, http.Header.Set, hkey]

/-! ## The catch-all handler -/

/-- C3, as stated, fails at three requests for the registry of the repository's test, none
of which begins with `<prefix>v2/`. A GET for exactly `<prefix>v2` is answered by the router
with a redirect to `<prefix>v2/`, and a GET for a path with a doubled slash with a redirect
to the canonical path: no handler forwards them. A GET for `<prefix>abc` that carries an
Authorization header goes to the catch-all handler, which forwards the header as it came. -/
theorem C3_catch_all_counterexample :
    (strings.HasPrefix "/example-project/example-repo/v2" (proxyPath exampleRemote ++ "v2/")
        = false
      ∧ ∃ status, serve exampleRemote (proxyPath exampleRemote) (.ok exampleToken)
          (exampleRequest "/example-project/example-repo/v2" noHeader)
        = .redirect status "/example-project/example-repo/v2/" "")
    ∧ (strings.HasPrefix "/example-project//example-repo/abc" (proxyPath exampleRemote ++ "v2/")
        = false
      ∧ ∃ status, serve exampleRemote (proxyPath exampleRemote) (.ok exampleToken)
          (exampleRequest "/example-project//example-repo/abc" noHeader)
        = .redirect status "/example-project/example-repo/abc" "")
    ∧ (strings.HasPrefix "/example-project/example-repo/abc" (proxyPath exampleRemote ++ "v2/")
        = false
      ∧ ∃ q, serve exampleRemote (proxyPath exampleRemote) (.ok exampleToken)
          (exampleRequest "/example-project/example-repo/abc"
            (noHeader.Set "Authorization" "Basic dXNlcjpwdw=="))
          = .served .catchAll { status := none, forwarded := some q, request := q }
        ∧ q.Header.values "Authorization" = some ["Basic dXNlcjpwdw=="]) :=
  ⟨⟨by decide, _, rfl⟩, ⟨by decide, _, rfl⟩, by decide, _, rfl, rfl⟩

/-- C3, amended: for a registry whose prefix holds no percent-escape (the case in which the
routers of all Go releases read the registered pattern alike), a request that the router
passes on (canonical path, request-URI other than `*`), whose path neither begins with
`<prefix>v2/` nor is `<prefix>v2`, is forwarded by the catch-all handler with only `Host`
rewritten to the upstream host. Path, query, method, body and all headers are those of the
inbound request: no Authorization header is added, and one that came with the request is
forwarded unchanged. -/
theorem C3_catch_all_forwards (remote : url.URL) (fetch : Except String oauth2.Token)
    (r : http.Request) (_hplain : strings.Contains (proxyPath remote) "%" = false)
    (hcanon : r.canonical = true) (hne : r.URL.Path ≠ proxyPath remote ++ "v2")
    (hnp : strings.HasPrefix r.URL.Path (proxyPath remote ++ "v2/") = false) :
    ∃ q, serve remote (proxyPath remote) fetch r
        = .served .catchAll { status := none, forwarded := some q, request := q }
      ∧ q = { r with Host := remote.Host }
      ∧ q.Header.values "Authorization" = r.Header.values "Authorization" :=
  ⟨_, serve_catchAll remote _ fetch r hcanon hne hnp, rfl, rfl⟩

/-- C3, amended, at the request of the repository's test that lacks the slash after `v2`. -/
theorem C3_catch_all_forwards_witness :
    ∃ q, serve exampleRemote (proxyPath exampleRemote) (.ok exampleToken)
        (exampleRequest "/example-project/example-repo/v2library/hello-world/manifests/latest"
          noHeader)
        = .served .catchAll { status := none, forwarded := some q, request := q }
      ∧ q = { exampleRequest
                "/example-project/example-repo/v2library/hello-world/manifests/latest" noHeader
              with Host := "backend" }
      ∧ q.Header.values "Authorization" = none :=
  C3_catch_all_forwards exampleRemote (.ok exampleToken)
    (exampleRequest "/example-project/example-repo/v2library/hello-world/manifests/latest"
      noHeader) (by decide) (by decide) (by decide) (by decide)

/-- C5, as stated, fails for the registry `https://backend`, whose prefix is `/`: the
pattern `/v2/` is then `"/v2" + prefix` itself, the upstream-shaped path
`/v2/library/hello-world/manifests/latest` begins with it, and the matched-path handler
takes the request and attaches the token. It also fails for the registry of the
repository's test at a `rest` with a doubled slash: the router answers with a redirect to
the canonical path and no handler forwards the request. -/
theorem C5_upstream_shape_counterexample :
    (proxyPath rootRemote ++ "v2/" = "/v2" ++ proxyPath rootRemote
      ∧ "/v2/library/hello-world/manifests/latest"
        = "/v2" ++ proxyPath rootRemote ++ "library/hello-world/manifests/latest"
      ∧ strings.HasPrefix "/v2/library/hello-world/manifests/latest"
          (proxyPath rootRemote ++ "v2/") = true
      ∧ ∃ q, serve rootRemote (proxyPath rootRemote) (.ok exampleToken)
          (exampleRequest "/v2/library/hello-world/manifests/latest" noHeader)
          = .served .matchedPath { status := none, forwarded := some q, request := q }
        ∧ q.Header.values "Authorization" = some ["Bearer ya29.token"])
    ∧ ("/v2/example-project/example-repo/library//hello-world"
        = "/v2" ++ proxyPath exampleRemote ++ "library//hello-world"
      ∧ serve exampleRemote (proxyPath exampleRemote) (.ok exampleToken)
          (exampleRequest "/v2/example-project/example-repo/library//hello-world" noHeader)
        = .redirect 301 "/v2/example-project/example-repo/library/hello-world" "") :=
  ⟨⟨by decide, by decide, by decide, _, rfl, rfl⟩, by decide, rfl⟩

/-- C5, amended: when the pattern `prefix + "v2/"` differs from `"/v2" + prefix` (as it does
for every prefix other than `/` that does not begin with `/v2/`), a request in upstream
shape `"/v2" + prefix + rest` that the router passes on (canonical path) does not match the
pattern; the catch-all handler forwards it with only `Host` rewritten: the path is the
inbound path and the headers are the inbound headers, no token being attached. -/
theorem C5_upstream_shape_falls_through (remote : url.URL) (fetch : Except String oauth2.Token)
    (r : http.Request) (rest : String)
    (hshape : proxyPath remote ++ "v2/" ≠ "/v2" ++ proxyPath remote)
    (hpath : r.URL.Path = "/v2" ++ proxyPath remote ++ rest) (hcanon : r.canonical = true) :
    strings.HasPrefix r.URL.Path (proxyPath remote ++ "v2/") = false
      ∧ ∃ q, serve remote (proxyPath remote) fetch r
          = .served .catchAll { status := none, forwarded := some q, request := q }
        ∧ q.URL.Path = r.URL.Path ∧ q.Header = r.Header
        ∧ q = { r with Host := remote.Host } := by
  have hnp : strings.HasPrefix r.URL.Path (proxyPath remote ++ "v2/") = false := by
    rw [hpath, ← Bool.not_eq_true, upstream_shape_matched_iff]
    exact hshape
  have hne : r.URL.Path ≠ proxyPath remote ++ "v2" := by
    rw [hpath]
    exact upstream_shape_ne _ _
  exact ⟨hnp, _, serve_catchAll remote _ fetch r hcanon hne hnp, rfl, rfl, rfl⟩

/-- C5, amended, at the upstream-shaped request of the repository's test. -/
theorem C5_upstream_shape_falls_through_witness :
    strings.HasPrefix "/v2/example-project/example-repo/library/hello-world/manifests/latest"
        (proxyPath exampleRemote ++ "v2/") = false
      ∧ ∃ q, serve exampleRemote (proxyPath exampleRemote) (.ok exampleToken)
          (exampleRequest "/v2/example-project/example-repo/library/hello-world/manifests/latest"
            noHeader)
          = .served .catchAll { status := none, forwarded := some q, request := q }
        ∧ q.URL.Path = "/v2/example-project/example-repo/library/hello-world/manifests/latest"
        ∧ q.Header = noHeader
        ∧ q = { exampleRequest
                  "/v2/example-project/example-repo/library/hello-world/manifests/latest"
                  noHeader with Host := "backend" } :=
  C5_upstream_shape_falls_through exampleRemote (.ok exampleToken)
    (exampleRequest "/v2/example-project/example-repo/library/hello-world/manifests/latest"
      noHeader) "library/hello-world/manifests/latest" (by decide) (by decide) (by decide)

/-! ## The prefix computed at startup -/

/-- C6 at the registry `https://backend/example-project/example-repo/`, whose path ends in
a slash: the prefix computed at startup ends in two slashes, not in exactly one. The
pattern registered with it holds a doubled slash, which no canonical path does: a request
for `<path>v2/...` goes to the catch-all handler and is forwarded without a token, and a
request that spells the pattern is redirected by the router to that path. -/
theorem C6_trailing_slash_prefix :
    proxyPath slashRemote = "/example-project/example-repo//"
      ∧ strings.HasSuffix (proxyPath slashRemote) "//" = true
      ∧ (∃ q, serve slashRemote (proxyPath slashRemote) (.ok exampleToken)
          (exampleRequest "/example-project/example-repo/v2/library/hello-world/manifests/latest"
            noHeader)
          = .served .catchAll { status := none, forwarded := some q, request := q }
        ∧ q.Header.values "Authorization" = none)
      ∧ serve slashRemote (proxyPath slashRemote) (.ok exampleToken)
          (exampleRequest "/example-project/example-repo//v2/library/hello-world/manifests/latest"
            noHeader)
        = .redirect 301 "/example-project/example-repo/v2/library/hello-world/manifests/latest"
            "" :=
  ⟨by decide, by decide, ⟨_, rfl, rfl⟩, rfl⟩

/-- C10, as stated, fails for a registry URL whose path holds the marker: for
`https://backend/v2/example-project` the prefix is `/v2/example-project/`, which contains
`v2/`, read from the configured URL. -/
theorem C10_marker_counterexample :
    proxyPath { exampleRemote with Path := "/v2/example-project" } = "/v2/example-project/"
      ∧ strings.Contains (proxyPath { exampleRemote with Path := "/v2/example-project" }) "v2/"
        = true := by
  decide

/-- C10, amended: the pattern registered for the matched-path handler is the prefix
followed by the literal `v2/`, and the rewritten path is the literal `/v2` followed by the
prefix and the trimmed path, both literals coming from the program; the prefix itself
contains `v2/` exactly when the escaped path of the configured URL contains `v2/` or ends
in `v2`. -/
theorem C10_marker_from_program (remote : url.URL) :
    (registered (proxyPath remote)).m
        = [{ h := .matchedPath, pattern := proxyPath remote ++ "v2/" },
           { h := .catchAll, pattern := "/" }]
      ∧ (∀ (token : oauth2.Token) (r : http.Request),
          (matchedPathHandler remote (proxyPath remote) (.ok token) r).request.URL.Path
            = "/v2" ++ proxyPath remote
                ++ strings.TrimPrefix r.URL.Path (proxyPath remote ++ "v2/"))
      ∧ strings.Contains (proxyPath remote) "v2/"
        = (strings.Contains remote.EscapedPath "v2/"
            || strings.HasSuffix remote.EscapedPath "v2") := by
  refine ⟨by rw [registered_eq], fun _ _ => rfl, ?_⟩
  rw [proxyPath_eq]
  exact Contains_append_slash _

/-! ## Startup -/

/-- C8: when the registry address fails to parse, or parses to a URL with an empty scheme,
`main` ends in `exit 1` without having registered a handler, bound the listener or touched
the credentials. -/
theorem C8_bad_registry_exits (env : Env) (config : Config)
    (hconfig : parseConfiguration env = .ok config)
    (hbad : (∃ err, env.urlParse config.Registry = .error err)
      ∨ ∃ remote, env.urlParse config.Registry = .ok remote ∧ remote.Scheme = "") :
    (main env).getLast? = some (.exit 1)
      ∧ (main env).any Event.isHandleFunc = false
      ∧ (main env).any Event.isListen = false
      ∧ (main env).any Event.isCredential = false := by
  rcases hbad with ⟨err, h⟩ | ⟨remote, h, hs⟩
  · simp [main, hconfig, h, Event.isHandleFunc, Event.isListen, Event.isCredential]
  · simp [main, hconfig, h, hs, url.URL.IsAbs, Event.isHandleFunc, Event.isListen,
      Event.isCredential]

/-- C8 at an address that does not parse and at the relative address `backend/repo`. -/
theorem C8_bad_registry_exits_witness :
    main (exampleEnv (exampleConfig "https://back end/" false) (.error "invalid character")
        true (.ok ()) (.ok exampleToken))
      = [.urlParse "https://back end/", .slogError "Unable to parse registry address", .exit 1]
    ∧ (main (exampleEnv (exampleConfig "backend/repo" false)
        (.ok { Scheme := "", Host := "", Path := "backend/repo", RawPath := "", RawQuery := "" })
        true (.ok ()) (.ok exampleToken))).getLast? = some (.exit 1) :=
  ⟨by decide,
   (C8_bad_registry_exits
      (exampleEnv (exampleConfig "backend/repo" false)
        (.ok { Scheme := "", Host := "", Path := "backend/repo", RawPath := "", RawQuery := "" })
        true (.ok ()) (.ok exampleToken))
      (exampleConfig "backend/repo" false) rfl (Or.inr ⟨_, rfl, rfl⟩)).1⟩

/-- C9: in both credential modes the listener is bound only after the eager token fetch
from the constructed credentials has succeeded; and when metadata-only mode is selected
outside the cloud environment, when no default credentials are found, or when the eager
fetch fails, `main` ends in `exit 1` with no handler registered and no listener bound. -/
theorem C9_listen_requires_token (env : Env) :
    ((main env).any Event.isListen = true →
        ∃ config token, parseConfiguration env = .ok config
          ∧ ((config.OnlyMetadata = true ∧ env.onGCE = true
                ∧ env.computeTokenSource.Token 0 = .ok token)
            ∨ (config.OnlyMetadata = false
                ∧ ∃ creds, env.findDefaultCredentials = .ok creds
                  ∧ creds.TokenSource.Token 0 = .ok token)))
      ∧ ∀ config, parseConfiguration env = .ok config →
          ((config.OnlyMetadata = true ∧ env.onGCE = false)
            ∨ (config.OnlyMetadata = true ∧ ∃ err, env.computeTokenSource.Token 0 = .error err)
            ∨ (config.OnlyMetadata = false ∧ ∃ err, env.findDefaultCredentials = .error err)
            ∨ (config.OnlyMetadata = false
                ∧ ∃ creds err, env.findDefaultCredentials = .ok creds
                  ∧ creds.TokenSource.Token 0 = .error err)) →
          (main env).getLast? = some (.exit 1)
            ∧ (main env).any Event.isHandleFunc = false
            ∧ (main env).any Event.isListen = false := by
  constructor
  · intro h
    cases hc : parseConfiguration env with
    | error e => simp [main, hc, Event.isListen] at h
    | ok config =>
      refine ⟨config, ?_⟩
      cases hp : env.urlParse config.Registry with
      | error e => simp [main, hc, hp, Event.isListen] at h
      | ok remote =>
        cases ha : remote.IsAbs with
        | false => simp [main, hc, hp, ha, Event.isListen] at h
        | true =>
          cases hm : config.OnlyMetadata with
          | true =>
            cases hg : env.onGCE with
            | false => simp [main, hc, hp, ha, hm, hg, Event.isListen] at h
            | true =>
              cases ht : env.computeTokenSource.Token 0 with
              | error e =>
                simp [main, hc, hp, ha, hm, hg, ht, Event.isListen] at h
              | ok token => exact ⟨token, rfl, Or.inl ⟨rfl, rfl, rfl⟩⟩
          | false =>
            cases hf : env.findDefaultCredentials with
            | error e => simp [main, hc, hp, ha, hm, hf, Event.isListen] at h
            | ok creds =>
              cases ht : creds.TokenSource.Token 0 with
              | error e =>
                simp [main, hc, hp, ha, hm, hf, ht, Event.isListen] at h
              | ok token => exact ⟨token, rfl, Or.inr ⟨rfl, creds, rfl, ht⟩⟩
  · intro config hc hfail
    cases hp : env.urlParse config.Registry with
    | error e => simp [main, hc, hp, Event.isHandleFunc, Event.isListen]
    | ok remote =>
      cases ha : remote.IsAbs with
      | false => simp [main, hc, hp, ha, Event.isHandleFunc, Event.isListen]
      | true =>
        rcases hfail with ⟨hm, hg⟩ | ⟨hm, err, ht⟩ | ⟨hm, err, hf⟩ | ⟨hm, creds, err, hf, ht⟩
        · simp [main, hc, hp, ha, hm, hg, Event.isHandleFunc, Event.isListen]
        · cases hg : env.onGCE <;>
            simp [main, hc, hp, ha, hm, hg, ht, Event.isHandleFunc, Event.isListen]
        · simp [main, hc, hp, ha, hm, hf, Event.isHandleFunc, Event.isListen]
        · simp [main, hc, hp, ha, hm, hf, ht, Event.isHandleFunc, Event.isListen]

/-- C9 at four runs for the registry of the repository's test: metadata-only mode outside
the cloud environment, no default credentials, a failing eager fetch, and a good run. -/
theorem C9_listen_requires_token_witness :
    (main (exampleEnv (exampleConfig "https://backend/example-project/example-repo" true)
        (.ok exampleRemote) false (.ok ()) (.ok exampleToken))).getLast? = some (.exit 1)
    ∧ (main (exampleEnv (exampleConfig "https://backend/example-project/example-repo" false)
        (.ok exampleRemote) false (.error "could not find default credentials")
        (.ok exampleToken))).getLast? = some (.exit 1)
    ∧ (main (exampleEnv (exampleConfig "https://backend/example-project/example-repo" false)
        (.ok exampleRemote) false (.ok ()) (.error "unauthorized"))).any Event.isListen = false
    ∧ main (exampleEnv (exampleConfig "https://backend/example-project/example-repo" false)
        (.ok exampleRemote) false (.ok ()) (.ok exampleToken))
      = [.urlParse "https://backend/example-project/example-repo", .findDefaultCredentials,
         .token, .handleFunc "/example-project/example-repo/v2/" .matchedPath,
         .handleFunc "/" .catchAll, .slogInfo "Starting server...",
         .listenAndServe "127.0.0.1:8000"] :=
  ⟨((C9_listen_requires_token
      (exampleEnv (exampleConfig "https://backend/example-project/example-repo" true)
        (.ok exampleRemote) false (.ok ()) (.ok exampleToken))).2
      (exampleConfig "https://backend/example-project/example-repo" true) rfl
      (Or.inl ⟨rfl, rfl⟩)).1,
   ((C9_listen_requires_token
      (exampleEnv (exampleConfig "https://backend/example-project/example-repo" false)
        (.ok exampleRemote) false (.error "could not find default credentials")
        (.ok exampleToken))).2
      (exampleConfig "https://backend/example-project/example-repo" false) rfl
      (Or.inr (Or.inr (Or.inl ⟨rfl, _, rfl⟩)))).1,
   ((C9_listen_requires_token
      (exampleEnv (exampleConfig "https://backend/example-project/example-repo" false)
        (.ok exampleRemote) false (.ok ()) (.error "unauthorized"))).2
      (exampleConfig "https://backend/example-project/example-repo" false) rfl
      (Or.inr (Or.inr (Or.inr ⟨rfl, _, _, rfl, rfl⟩)))).2.2,
   by decide⟩

end GcpProxy
